import Mathlib

/-!
Verification of `steefzilla/suiteymk2`, a repository of arithmetic fixture
libraries. The code under verification:

* `src/example/rust-project/src/lib.rs`: `add`, `multiply`, `is_even` on `i32`;
* `src/example/rust+bats/src/lib.rs`: `combined_add` on `i32`.

Rust `i32` values are embedded as `Int` carrying an in-bounds predicate;
two's-complement wrap-around of arithmetic results is made explicit via
`Suitey.wrap32`, and Rust's `%` (truncating remainder) is `Int.tmod`.
-/

namespace Suitey

/-- Smallest `i32` value, `i32::MIN = -2^31`. -/
def i32min : Int := -(2 ^ 31)

/-- Largest `i32` value, `i32::MAX = 2^31 - 1`. -/
def i32max : Int := 2 ^ 31 - 1

/-- `x` is representable as an `i32`. -/
def inBounds (x : Int) : Prop := i32min ≤ x ∧ x ≤ i32max

instance (x : Int) : Decidable (inBounds x) := by
  unfold inBounds; infer_instance

/-- Two's-complement wrap of an integer into the `i32` range, the release-mode
semantics of overflowing `i32` arithmetic in Rust. -/
def wrap32 (x : Int) : Int := (x + 2 ^ 31) % 2 ^ 32 - 2 ^ 31

/-- `pub fn add(a: i32, b: i32) -> i32 { a + b }`
(src/example/rust-project/src/lib.rs, lines 4-6). -/
def add (a b : Int) : Int := wrap32 (a + b)

/-- `pub fn multiply(a: i32, b: i32) -> i32 { a * b }`
(src/example/rust-project/src/lib.rs, lines 8-10). -/
def multiply (a b : Int) : Int := wrap32 (a * b)

/-- `pub fn is_even(n: i32) -> bool { n % 2 == 0 }`
(src/example/rust-project/src/lib.rs, lines 12-14). Rust `%` on signed
integers is the truncating remainder, `Int.tmod`. -/
def is_even (n : Int) : Bool := Int.tmod n 2 == 0

/-- `pub fn combined_add(a: i32, b: i32) -> i32 { a + b }`
(src/example/rust+bats/src/lib.rs, lines 1-3). -/
def combined_add (a b : Int) : Int := wrap32 (a + b)

/-- Rust's signed remainder as a fallible operation: `a % b` panics when
`b = 0` (division by zero) or when `a = i32::MIN` and `b = -1` (overflow);
otherwise it yields the truncating remainder. -/
def tmodChecked (a b : Int) : Option Int :=
  if b = 0 ∨ (a = i32min ∧ b = -1) then none else some (Int.tmod a b)

/-- `is_even` with the panic branch of `%` made explicit. -/
def is_even_checked (n : Int) : Option Bool :=
  (tmodChecked n 2).map (fun r => r == 0)

/-- On in-bounds values `wrap32` is the identity. -/
theorem wrap32_eq_self {x : Int} (h : inBounds x) : wrap32 x = x := by
  obtain ⟨h1, h2⟩ := h
  unfold i32min at h1
  unfold i32max at h2
  unfold wrap32
  have hlo : (0 : Int) ≤ x + 2 ^ 31 := by omega
  have hhi : x + 2 ^ 31 < 2 ^ 32 := by omega
  rw [Int.emod_eq_of_lt hlo hhi]
  omega

/-- `is_even n` is `true` exactly when `2` divides `n`. -/
theorem is_even_iff_dvd (n : Int) : is_even n = true ↔ (2 : Int) ∣ n := by
  unfold is_even
  rw [beq_iff_eq]
  exact (Int.dvd_iff_tmod_eq_zero).symm

/-- `wrap32` preserves parity: it shifts its argument by a multiple of `2^32`. -/
theorem wrap32_parity (x : Int) : ((2 : Int) ∣ wrap32 x) ↔ (2 : Int) ∣ x := by
  unfold wrap32
  have hmod : (x + 2 ^ 31) % 2 ^ 32 = x + 2 ^ 31 - 2 ^ 32 * ((x + 2 ^ 31) / 2 ^ 32) := by
    omega
  rw [hmod]
  constructor
  · intro h
    omega
  · intro h
    omega

end Suitey

open Suitey

/-- C1: for every in-bounds `i32` value `n` (negatives and zero included),
`is_even n` returns `true` iff `n` is exactly divisible by 2; on a constant
divisor of 2 the truncating and mathematical remainder agree on being zero. -/
theorem C1_is_even_iff_divisible (n : Int) (h : inBounds n) :
    is_even n = true ↔ (2 : Int) ∣ n := by
  exact is_even_iff_dvd n

/-- Witness for C1 at `n = -4`. -/
theorem C1_is_even_iff_divisible_witness :
    inBounds (-4) ∧ (is_even (-4) = true ↔ (2 : Int) ∣ (-4)) :=
  ⟨by decide, C1_is_even_iff_divisible (-4) (by decide)⟩

/-- C2: whenever `a`, `b` and their mathematical sum are representable as
`i32`, `add a b` returns the mathematical sum `a + b`. -/
theorem C2_add_exact (a b : Int) (ha : inBounds a) (hb : inBounds b)
    (hs : inBounds (a + b)) : add a b = a + b := by
  unfold add
  exact wrap32_eq_self hs

/-- Witness for C2 at `a = 2`, `b = 3`. -/
theorem C2_add_exact_witness :
    inBounds 2 ∧ inBounds 3 ∧ inBounds (2 + 3) ∧ add 2 3 = 2 + 3 :=
  ⟨by decide, by decide, by decide, C2_add_exact 2 3 (by decide) (by decide) (by decide)⟩

/-- C3: whenever `a`, `b` and their mathematical product are representable as
`i32`, `multiply a b` returns the mathematical product `a * b`. -/
theorem C3_multiply_exact (a b : Int) (ha : inBounds a) (hb : inBounds b)
    (hp : inBounds (a * b)) : multiply a b = a * b := by
  unfold multiply
  exact wrap32_eq_self hp

/-- Witness for C3 at `a = -2`, `b = 3`. -/
theorem C3_multiply_exact_witness :
    inBounds (-2) ∧ inBounds 3 ∧ inBounds ((-2) * 3) ∧ multiply (-2) 3 = (-2) * 3 :=
  ⟨by decide, by decide, by decide,
    C3_multiply_exact (-2) 3 (by decide) (by decide) (by decide)⟩

/-- C4: `combined_add`, defined in the separate fixture module
`src/example/rust+bats`, is extensionally identical to `add`. -/
theorem C4_combined_add_eq_add (a b : Int) : combined_add a b = add a b := rfl

/-- C5: `is_even` is invariant under negation, `i32::MIN` included: both for
the mathematical negation and for the wrapped (two's-complement) negation that
Rust release mode computes at `i32::MIN`. -/
theorem C5_is_even_neg (n : Int) :
    is_even (-n) = is_even n ∧ is_even (wrap32 (-n)) = is_even n := by
  have key : ∀ m : Int, is_even (-m) = is_even m := by
    intro m
    rcases h : is_even m with _ | _
    · rcases h2 : is_even (-m) with _ | _
      · rfl
      · exfalso
        have hd : (2 : Int) ∣ -m := (is_even_iff_dvd (-m)).mp h2
        have hd2 : (2 : Int) ∣ m := (dvd_neg).mp hd
        have := (is_even_iff_dvd m).mpr hd2
        rw [h] at this
        exact Bool.false_ne_true this
    · have hd : (2 : Int) ∣ m := (is_even_iff_dvd m).mp h
      have hd2 : (2 : Int) ∣ -m := (dvd_neg).mpr hd
      exact (is_even_iff_dvd (-m)).mpr hd2
  refine ⟨key n, ?_⟩
  rcases h : is_even n with _ | _
  · rcases h2 : is_even (wrap32 (-n)) with _ | _
    · rfl
    · exfalso
      have hd : (2 : Int) ∣ wrap32 (-n) := (is_even_iff_dvd _).mp h2
      have hd2 : (2 : Int) ∣ -n := (wrap32_parity (-n)).mp hd
      have hd3 : (2 : Int) ∣ n := (dvd_neg).mp hd2
      have := (is_even_iff_dvd n).mpr hd3
      rw [h] at this
      exact Bool.false_ne_true this
  · have hd : (2 : Int) ∣ n := (is_even_iff_dvd n).mp h
    have hd2 : (2 : Int) ∣ -n := (dvd_neg).mpr hd
    have hd3 : (2 : Int) ∣ wrap32 (-n) := (wrap32_parity (-n)).mpr hd2
    exact (is_even_iff_dvd _).mpr hd3

/-- C6: `add` is commutative, and `0` is a right identity for every
representable `a`. -/
theorem C6_add_comm_identity :
    (∀ a b : Int, add a b = add b a) ∧ (∀ a : Int, inBounds a → add a 0 = a) := by
  constructor
  · intro a b
    unfold add
    rw [Int.add_comm a b]
  · intro a ha
    unfold add
    rw [Int.add_zero]
    exact wrap32_eq_self ha

/-- Witness for C6: identity instantiated at `a = 7`. -/
theorem C6_add_comm_identity_witness :
    add 5 9 = add 9 5 ∧ (inBounds 7 ∧ add 7 0 = 7) :=
  ⟨C6_add_comm_identity.1 5 9, by decide, C6_add_comm_identity.2 7 (by decide)⟩

/-- C7: `multiply` is commutative for all `i32` inputs, and `0` annihilates:
`multiply a 0 = 0` for every `a`. -/
theorem C7_multiply_comm_zero :
    (∀ a b : Int, multiply a b = multiply b a) ∧ (∀ a : Int, multiply a 0 = 0) := by
  constructor
  · intro a b
    unfold multiply
    rw [Int.mul_comm a b]
  · intro a
    unfold multiply
    rw [Int.mul_zero]
    decide

/-- C8: `add`, `multiply`, `is_even` and `combined_add` are deterministic pure
functions: evaluation on equal inputs yields equal results, and every input in
the domain produces a result (the embedding functions are total, no error is
signalled). -/
theorem C8_pure_deterministic (a b a2 b2 : Int) (ha : a = a2) (hb : b = b2) :
    add a b = add a2 b2 ∧ multiply a b = multiply a2 b2 ∧
      is_even a = is_even a2 ∧ combined_add a b = combined_add a2 b2 := by
  subst ha
  subst hb
  exact ⟨rfl, rfl, rfl, rfl⟩

/-- Witness for C8 at `a = a2 = 4`, `b = b2 = 11`. -/
theorem C8_pure_deterministic_witness :
    (4 : Int) = 4 ∧ (11 : Int) = 11 ∧
      (add 4 11 = add 4 11 ∧ multiply 4 11 = multiply 4 11 ∧
        is_even 4 = is_even 4 ∧ combined_add 4 11 = combined_add 4 11) :=
  ⟨rfl, rfl, C8_pure_deterministic 4 11 4 11 rfl rfl⟩

/-- C9: every concrete scenario asserted by the spec and the repository's unit
and integration tests holds. -/
theorem C9_concrete_scenarios :
    add 2 3 = 5 ∧ add (-1) 1 = 0 ∧ add 0 0 = 0 ∧
      multiply 2 3 = 6 ∧ multiply (-2) 3 = -6 ∧ multiply 0 5 = 0 ∧
      is_even 2 = true ∧ is_even 0 = true ∧ is_even (-2) = true ∧
      is_even 1 = false ∧ is_even (-1) = false ∧
      multiply (add 2 3) 2 = 10 ∧
      (∀ n ∈ [(1 : Int), 2, 3, 4, 5, 6], is_even n = (n % 2 == 0)) := by
  refine ⟨?_, ?_, ?_, ?_, ?_, ?_, ?_, ?_, ?_, ?_, ?_, ?_, ?_⟩ <;> decide

/-- C10: `is_even` never hits the panic branch of `%`: the divisor is the
constant `2`, so neither division by zero nor the `i32::MIN % -1` overflow is
reachable, the checked evaluation always succeeds with the value of `is_even`,
and `is_even i32::MIN = true`. -/
theorem C10_is_even_total :
    (∀ n : Int, is_even_checked n = some (is_even n)) ∧ is_even i32min = true := by
  constructor
  · intro n
    unfold is_even_checked tmodChecked is_even
    rw [if_neg]
    · rfl
    · push_neg
      exact ⟨by decide, fun _ => by decide⟩
  · decide
